import Mathlib

/-!
Shallow embedding of `src/scrapers/flipkart_scraper.py` (class `FlipkartScraper`).

Modelling conventions:
* A BeautifulSoup element tree is abstracted by the results of the queries the
  scraper performs on it.  An `Elem` records, for one candidate container:
  the tag name and attributes (used by `parse_search_results` to select
  containers), the stripped text of the first element matched by the title
  selector chain (`titleText`), the `.string` contents of descendant `div`
  and `span` elements in `find` order (`divStrings`, `spanStrings`), all
  descendant text nodes in document order (`textNodes`), the `src` attribute
  of the first `img` (`imgSrc`) and the `href` of the first anchor
  (`linkHref`).
* Python regular expressions are modelled on `List Char`; `\d` is modelled as
  an ASCII digit.  `str(elem)` for a matched price/rating element is modelled
  by the element's matched string content.
* Python exceptions are modelled with `Except Unit`; `float` arithmetic for
  the discount is modelled exactly over `ℚ`, with Python's `round`
  (round-half-to-even) as `pyRound`.
* Python's process-salted `hash` builtin is an uninterpreted parameter
  `hashF : String → Int`.
-/

namespace Flipkart

/-! ### Character and number helpers (models of the regexes and of `int`/`float`) -/

/-- Model of the character class `[\d,]` from the pattern `₹[\d,]+`. -/
def isDigitOrComma (c : Char) : Bool := c.isDigit || c == ','

/-- Model of the character class `[0-9.]` from the rating pattern. -/
def isDigitOrDot (c : Char) : Bool := c.isDigit || c == '.'

/-- Numeric value of a list of decimal digit characters. -/
def natVal (ds : List Char) : Nat := ds.foldl (fun a c => 10 * a + (c.toNat - 48)) 0

/-- Model of Python `int(s)` on the strings reachable here: succeeds exactly on
a nonempty all-digit string (`int('')` raises `ValueError`). -/
def pyIntParse (cs : List Char) : Option Int :=
  if cs ≠ [] ∧ cs.all Char.isDigit then some (Int.ofNat (natVal cs)) else none

/-- Model of Python `float(s)` on captures of `[0-9.]+`: succeeds exactly when
there is at most one dot and at least one digit (`float('.')` raises). -/
def pyFloatParse (cs : List Char) : Option ℚ :=
  if cs.count '.' = 0 then
    if cs ≠ [] ∧ cs.all Char.isDigit then some ((natVal cs : ℚ)) else none
  else if cs.count '.' = 1 then
    let ip := cs.takeWhile (fun c => c ≠ '.')
    let fp := (cs.dropWhile (fun c => c ≠ '.')).tail
    if (ip.all Char.isDigit ∧ fp.all Char.isDigit) ∧ (ip ≠ [] ∨ fp ≠ []) then
      some ((natVal ip : ℚ) + (natVal fp : ℚ) / ((10 : ℚ) ^ fp.length))
    else none
  else none

/-- Model of `re.search(r'₹([\d,]+)', text)`: the capture group of the leftmost
match, i.e. the maximal `[\d,]` run after the first `₹` that is followed by at
least one `[\d,]` character. -/
def findPriceCapture : List Char → Option (List Char)
  | [] => none
  | c :: rest =>
    if c == '₹' && (match rest with | r :: _ => isDigitOrComma r | [] => false) then
      some (rest.takeWhile isDigitOrComma)
    else findPriceCapture rest

/-- Model of `re.search(r'₹[\d,]+', text)` viewed as a boolean test (used by the
`string=`/`text=` arguments of `find`). -/
def matchesPrice (s : String) : Bool := (findPriceCapture s.data).isSome

/-- The integer the scraper obtains from a price text: capture of
`₹([\d,]+)`, commas stripped, parsed by `int` (which may fail). -/
def parsePriceInt (s : String) : Option Int :=
  (findPriceCapture s.data).bind fun cap => pyIntParse (cap.filter (fun c => c ≠ ','))

/-- Whether the rating pattern `[0-9.]+\s*★` matches at the head of the list.
A greedy `[0-9.]+` run followed by whitespace and `★`; backtracking inside the
run cannot help, so greedy-then-check is exact. -/
def ratingHere (cs : List Char) : Bool :=
  (cs.takeWhile isDigitOrDot) ≠ [] &&
    (match (cs.dropWhile isDigitOrDot).dropWhile Char.isWhitespace with
     | c :: _ => c == '★'
     | [] => false)

/-- Model of `re.search(r'[0-9.]+\s*★', text)` as a boolean test. -/
def matchesRating (s : String) : Bool := s.data.tails.any ratingHere

/-- Model of `re.search(r'([0-9.]+)', text)`: the first maximal `[0-9.]` run. -/
def firstDigitDotRun : List Char → Option (List Char)
  | [] => none
  | c :: rest =>
    if isDigitOrDot c then some ((c :: rest).takeWhile isDigitOrDot)
    else firstDigitDotRun rest

/-- Python `round` on an exact rational: round half to even. -/
def pyRound (q : ℚ) : Int :=
  let f : Int := ⌊q⌋
  let r : ℚ := q - (f : ℚ)
  if r < 1 / 2 then f
  else if 1 / 2 < r then f + 1
  else if f % 2 = 0 then f else f + 1

/-- Model of Python `s[:n]` for a string (`n ≥ 0`). -/
def pyStrTake (s : String) (n : Nat) : String := String.mk (s.data.take n)

/-- Model of Python `s.startswith(p)`. -/
def strStartsWith (s p : String) : Bool := p.data.isPrefixOf s.data

/-- Lower-case a string character-wise (model of `str.lower` on the ASCII
class names and queries involved). -/
def strToLower (s : String) : String := String.mk (s.data.map Char.toLower)

/-- Upper-case a string character-wise (model of `str.upper`). -/
def strToUpper (s : String) : String := String.mk (s.data.map Char.toUpper)

/-- Model of Python `sub in s` (substring containment). -/
def strContains (s sub : String) : Bool := s.data.tails.any (fun t => sub.data.isPrefixOf t)

/-- Model of Python `s.split()`: split on whitespace runs, dropping empties. -/
def pySplitWs (s : String) : List String :=
  ((s.data.splitOnP Char.isWhitespace).filter (fun l => l ≠ [])).map String.mk

/-! ### Python values and dictionaries -/

/-- A Python value stored in a product dictionary. -/
inductive Value where
  | str (s : String)
  | int (n : Int)
  | rat (q : ℚ)
  | bool (b : Bool)
deriving DecidableEq

/-- A Python dict with string keys, in insertion order. -/
abbrev Dict := List (String × Value)

/-- Dictionary lookup, `d.get(k)`. -/
def dget (k : String) : Dict → Option Value
  | [] => none
  | p :: t => if p.1 = k then some p.2 else dget k t

/-- Dictionary assignment `d[k] = v`: overwrite in place, else append. -/
def dset (k : String) (v : Value) : Dict → Dict
  | [] => [(k, v)]
  | p :: t => if p.1 = k then (k, v) :: t else p :: dset k v t

/-- Python truthiness of an optional dict entry (`None`/missing is falsy,
`''`, `0`, `0.0` and `False` are falsy). -/
def truthy : Option Value → Bool
  | none => false
  | some (.str s) => s ≠ ""
  | some (.int n) => n ≠ 0
  | some (.rat q) => q ≠ 0
  | some (.bool b) => b

/-- `product.get('sellingPrice', 0)`-style read of an integer entry. -/
def intGetD (v : Option Value) (dflt : Int) : Int :=
  match v with
  | some (.int n) => n
  | _ => dflt

/-- `product.get('title', default)`-style read of a string entry. -/
def strGetD (v : Option Value) (dflt : String) : String :=
  match v with
  | some (.str s) => s
  | _ => dflt

/-! ### The container abstraction -/

/-- Abstraction of one candidate container element, recording the results of
the queries `extract_product_info` and `parse_search_results` perform on it. -/
structure Elem where
  tag : String
  attrs : List (String × String)
  titleText : Option String
  divStrings : List String
  spanStrings : List String
  textNodes : List String
  imgSrc : Option String
  linkHref : Option String
deriving DecidableEq

/-! ### Field extraction (`extract_product_info`, lines 102-187) -/

/-- Python `a or b` on optional find results (a found element is truthy here:
matched strings are nonempty and tags are truthy). -/
def pyOrOpt {α : Type} (a b : Option α) : Option α :=
  match a with
  | some x => some x
  | none => b

/-- The price element chain of lines 120-124: first `div` whose string matches
`₹[\d,]+`, else first such `span`, else first such text node; modelled by the
matched element's string content. -/
def priceElemText (e : Elem) : Option String :=
  pyOrOpt (e.divStrings.find? matchesPrice)
    (pyOrOpt (e.spanStrings.find? matchesPrice) (e.textNodes.find? matchesPrice))

/-- The MRP re-scan of line 133: first text node matching `₹[\d,]+`. -/
def firstTextPrice (e : Elem) : Option String := e.textNodes.find? matchesPrice

/-- Lines 116-117: store the (stripped) title text truncated to 100 chars. -/
def titleStep (e : Elem) (d : Dict) : Dict :=
  match e.titleText with
  | some t => dset "title" (.str (pyStrTake t 100)) d
  | none => d

/-- Lines 126-130: extract the selling price; `int` on an all-comma capture
raises, which aborts the whole container (`.error`). -/
def priceStep (e : Elem) (d : Dict) : Except Unit Dict :=
  match priceElemText e with
  | none => .ok d
  | some t =>
    match findPriceCapture t.data with
    | none => .ok d
    | some cap =>
      match pyIntParse (cap.filter (fun c => c ≠ ',')) with
      | none => .error ()
      | some n => .ok (dset "sellingPrice" (.int n) d)

/-- Lines 132-140: re-scan all text nodes for a price; keep it as `mrp` only
when strictly greater than `product.get('sellingPrice', 0)`. -/
def mrpStep (e : Elem) (d : Dict) : Except Unit Dict :=
  match firstTextPrice e with
  | none => .ok d
  | some t =>
    match findPriceCapture t.data with
    | none => .ok d
    | some cap =>
      match pyIntParse (cap.filter (fun c => c ≠ ',')) with
      | none => .error ()
      | some m => .ok (if intGetD (dget "sellingPrice" d) 0 < m then dset "mrp" (.int m) d else d)

/-- Lines 146-149: rewrite of the image source URL. -/
def rewriteImgUrl (u : String) : String :=
  if strStartsWith u "//" then "https:" ++ u
  else if strStartsWith u "/" then "https://www.flipkart.com" ++ u
  else u

/-- Lines 142-150: store the rewritten `src` of the first `img`, if truthy. -/
def imgStep (e : Elem) (d : Dict) : Dict :=
  match e.imgSrc with
  | some u => if u ≠ "" then dset "imageUrl" (.str (rewriteImgUrl u)) d else d
  | none => d

/-- Lines 152-159: store the (possibly base-prefixed) `href` of the first
anchor under both `url` and `flipkartUrl`. -/
def linkStep (e : Elem) (d : Dict) : Dict :=
  match e.linkHref with
  | some u =>
    let u2 := if strStartsWith u "/" then "https://www.flipkart.com" ++ u else u
    dset "flipkartUrl" (.str u2) (dset "url" (.str u2) d)
  | none => d

/-- Lines 161-166: find a text node matching `[0-9.]+\s*★`, capture the first
`[0-9.]+` run of it and parse as float (which may raise, e.g. on `'.'`). -/
def ratingStep (e : Elem) (d : Dict) : Except Unit Dict :=
  match e.textNodes.find? matchesRating with
  | none => .ok d
  | some t =>
    match firstDigitDotRun t.data with
    | none => .ok d
    | some run =>
      match pyFloatParse run with
      | none => .error ()
      | some r => .ok (dset "rating" (.rat r) d)

/-- Lines 189-206, `get_category_from_query`. -/
def categoryTable : List (String × List String) :=
  [("mobile", ["phone", "mobile", "smartphone", "redmi", "iphone", "samsung", "oneplus", "realme", "vivo", "oppo"]),
   ("laptop", ["laptop", "computer", "pc", "macbook", "dell", "hp", "lenovo", "asus"]),
   ("electronics", ["tv", "television", "headphone", "speaker", "camera", "tablet"]),
   ("fashion", ["shirt", "clothing", "fashion", "dress", "shoe", "watch", "bag"]),
   ("home", ["refrigerator", "washing machine", "ac", "microwave", "furniture"]),
   ("books", ["book", "novel", "textbook", "education"])]

/-- Model of `get_category_from_query`: first category one of whose keywords
is a substring of the lowercased query, else `general`. -/
def getCategoryFromQuery (query : String) : String :=
  let ql := strToLower query
  match categoryTable.find? (fun p => p.2.any (fun kw => strContains ql kw)) with
  | some p => p.1
  | none => "general"

/-- Lines 208-223, the fixed brand list of `extract_brand_from_title`. -/
def brandList : List String :=
  ["Samsung", "Apple", "Xiaomi", "OnePlus", "Realme", "Vivo", "Oppo", "Nokia",
   "Motorola", "Sony", "Dell", "HP", "Lenovo", "Asus", "Acer", "MSI"]

/-- Model of `extract_brand_from_title`. -/
def extractBrandFromTitle (title : String) : String :=
  if title = "" then "Brand"
  else
    match brandList.find? (fun b => strContains (strToUpper title) (strToUpper b)) with
    | some b => b
    | none =>
      match pySplitWs title with
      | w :: _ => w
      | [] => "Brand"

/-- Lines 168-177: `product.update({...})` with the synthesized default
fields, in the literal's insertion order. -/
def defaultsStep (hashF : String → Int) (query : String) (d : Dict) : Dict :=
  let pid := "live_" ++ toString (Int.natAbs (hashF (strGetD (dget "title" d) query)))
  let desc := "Real-time " ++ query ++ " product from Flipkart with latest pricing and availability."
  let cat := getCategoryFromQuery query
  let br := extractBrandFromTitle (strGetD (dget "title" d) "")
  dset "source" (.str "flipkart_live")
    (dset "availability" (.str "In Stock")
      (dset "brand" (.str br)
        (dset "category" (.str cat)
          (dset "inStock" (.bool true)
            (dset "description" (.str desc)
              (dset "productId" (.str pid) d))))))

/-- Lines 179-182: compute the discount when both prices are truthy. -/
def discountStep (d : Dict) : Dict :=
  if truthy (dget "mrp" d) && truthy (dget "sellingPrice" d) then
    let m := intGetD (dget "mrp" d) 0
    let s := intGetD (dget "sellingPrice" d) 0
    dset "discount" (.int (pyRound (((m : ℚ) - (s : ℚ)) / (m : ℚ) * 100))) d
  else d

/-- Body of the `try` of `extract_product_info`: the field steps in program
order; any raising step (`.error`) aborts the whole body. -/
def extractCore (hashF : String → Int) (e : Elem) (query : String) : Except Unit (Option Dict) :=
  match priceStep e (titleStep e []) with
  | .error u => .error u
  | .ok d2 =>
    match mrpStep e d2 with
    | .error u => .error u
    | .ok d3 =>
      match ratingStep e (linkStep e (imgStep e d3)) with
      | .error u => .error u
      | .ok d6 =>
        let d8 := discountStep (defaultsStep hashF query d6)
        .ok (if truthy (dget "title" d8) && truthy (dget "sellingPrice" d8) then some d8 else none)

/-- `extract_product_info` (lines 102-187): the body under `try`, with any
exception converted to `None` by the handler at line 186. -/
def extractProductInfo (hashF : String → Int) (e : Elem) (query : String) : Option Dict :=
  match extractCore hashF e query with
  | .ok r => r
  | .error _ => none

/-! ### Result-set parsing (`parse_search_results`, lines 75-100) -/

/-- Whether the element carries an attribute named `data-id` (any value). -/
def hasDataId (e : Elem) : Bool := e.attrs.any (fun p => p.1 = "data-id")

/-- The element's `class` attribute text, when present. -/
def classText (e : Elem) : Option String :=
  (e.attrs.find? (fun p => p.1 = "class")).map (fun p => p.2)

/-- Case-insensitive containment of `sub` (given lowercased) in the class
attribute text; an element without a class attribute never matches. -/
def classContainsI (e : Elem) (sub : String) : Bool :=
  match classText e with
  | some c => strContains (strToLower c) sub
  | none => false

/-- Python `a or b` on lists: the first operand unless it is empty. -/
def pyOrList {α : Type} (a b : List α) : List α := if a.isEmpty then b else a

/-- Lines 83-87: candidate container selection; all three `find_all` calls are
restricted to `div` elements. -/
def findCandidates (page : List Elem) : List Elem :=
  pyOrList (page.filter (fun e => e.tag = "div" && hasDataId e))
    (pyOrList (page.filter (fun e => e.tag = "div" && classContainsI e "product"))
      (page.filter (fun e => e.tag = "div" && classContainsI e "item")))

/-- The per-container body of the loop at lines 89-95: extract, then append
only when the product is truthy and has truthy `title` and `price` entries. -/
def parseStep (hashF : String → Int) (query : String) (acc : List Dict) (e : Elem) : List Dict :=
  match extractProductInfo hashF e query with
  | some product =>
    if (!product.isEmpty) && truthy (dget "title" product) && truthy (dget "price" product) then
      acc ++ [product]
    else acc
  | none => acc

/-- `parse_search_results` (lines 75-100): process at most 25 candidate
containers of the page. -/
def parseSearchResults (hashF : String → Int) (page : List Elem) (query : String) : List Dict :=
  ((findCandidates page).take 25).foldl (parseStep hashF query) []

/-! ### Fetching (`search_products`, lines 30-73) -/

/-- A fetched HTTP response: status code and the parsed document. -/
structure Response where
  statusCode : Int
  page : List Elem
deriving DecidableEq

/-- The result envelope of `search_products`; absent keys of the Python dict
are `none`. -/
structure Envelope where
  success : Bool
  products : List Dict
  total : Option Int
  query : String
  source : Option String
  error : Option String
deriving DecidableEq

/-- Line 39: `pages_to_scrape = min(3, (max_results // 10) + 1)` with Python's
floor division. -/
def pagesToScrape (maxResults : Int) : Int := min 3 (Int.fdiv maxResults 10 + 1)

/-- The page indices `range(1, pages_to_scrape + 1)`. -/
def pageRange (maxResults : Int) : List Nat :=
  (List.range (pagesToScrape maxResults).toNat).map (fun i => i + 1)

/-- The page loop of lines 41-56; `fetch` models `requests.get` (page index to
response or raised exception message), the second result counts the pages for
which a request was issued. -/
def searchLoop (fetch : Nat → Except String Response) (hashF : String → Int)
    (query : String) (maxResults : Int) :
    List Nat → List Dict → Nat → Except String (List Dict × Nat)
  | [], acc, fetched => .ok (acc, fetched)
  | p :: rest, acc, fetched =>
    match fetch p with
    | .error err => .error err
    | .ok resp =>
      if resp.statusCode ≠ 200 then .ok (acc, fetched + 1)
      else if maxResults ≤ ((acc ++ parseSearchResults hashF resp.page query).length : Int) then
        .ok (acc ++ parseSearchResults hashF resp.page query, fetched + 1)
      else
        searchLoop fetch hashF query maxResults rest
          (acc ++ parseSearchResults hashF resp.page query) (fetched + 1)

/-- Model of the Python slice `l[:m]` for a possibly negative `m`. -/
def takeInt {α : Type} (l : List α) (m : Int) : List α :=
  if 0 ≤ m then l.take m.toNat else l.take ((l.length : Int) + m).toNat

/-- `search_products` (lines 30-73): run the page loop under `try`; build the
success envelope, or the failure envelope from any raised exception. -/
def searchProducts (fetch : Nat → Except String Response) (hashF : String → Int)
    (query : String) (maxResults : Int) : Envelope :=
  match searchLoop fetch hashF query maxResults (pageRange maxResults) [] 0 with
  | .ok (products, _) =>
    ⟨true, takeInt products maxResults, some (products.length : Int), query, some "flipkart_live", none⟩
  | .error e => ⟨false, [], none, query, none, some e⟩

/-! ### Derived descriptions of the extraction steps -/

/-- The selling price `extract_product_info` computes when the price parse
does not raise: price-element text, capture, comma-stripped `int`. -/
def sellingOf (e : Elem) : Option Int := (priceElemText e).bind parsePriceInt

/-- The MRP value kept by the re-scan of lines 132-140, given the selling
price default `sp`: first price text node, parsed, kept when `sp < v`. -/
def mrpOf (e : Elem) (sp : Int) : Option Int :=
  (firstTextPrice e).bind fun t =>
    (parsePriceInt t).bind fun v => if sp < v then some v else none

/-- Whether the MRP step avoids a `ValueError` (its capture, when any, has a
digit). -/
def mrpParseOk (e : Elem) : Bool :=
  match firstTextPrice e with
  | none => true
  | some t =>
    match findPriceCapture t.data with
    | none => true
    | some cap => (pyIntParse (cap.filter (fun c => c ≠ ','))).isSome

/-- Whether the rating step avoids a `ValueError` (its captured `[0-9.]+` run,
when any, is a valid float literal). -/
def ratingParseOk (e : Elem) : Bool :=
  match e.textNodes.find? matchesRating with
  | none => true
  | some t =>
    match firstDigitDotRun t.data with
    | none => true
    | some run => (pyFloatParse run).isSome

/-! ### Claims as stated, where they need their own definitions -/

/-- Claim C3 as stated: the `mrp` entry of an extracted record is populated
if and only if some price in the container's text parses to a value strictly
greater than the extracted selling price. -/
def c3ClaimHolds (hashF : String → Int) (e : Elem) (q : String) : Bool :=
  match extractProductInfo hashF e q with
  | none => true
  | some d =>
    (dget "mrp" d).isSome ==
      e.textNodes.any (fun t =>
        match parsePriceInt t with
        | some v => intGetD (dget "sellingPrice" d) 0 < v
        | none => false)

/-- Claim C4 as stated: whenever the container yields a truthy title and a
truthy selling price, the other fields cannot abort the extraction, so a
record is returned. -/
def c4ClaimHolds (hashF : String → Int) (e : Elem) (q : String) : Bool :=
  match e.titleText, sellingOf e with
  | some t, some n =>
    if t ≠ "" ∧ n ≠ 0 then (extractProductInfo hashF e q).isSome else true
  | _, _ => true

/-- Claim C10 as stated (candidate selection over *all* elements, with no
restriction to `div` tags). -/
def claimFindCandidates (page : List Elem) : List Elem :=
  pyOrList (page.filter hasDataId)
    (pyOrList (page.filter (fun e => classContainsI e "product"))
      (page.filter (fun e => classContainsI e "item")))

/-! ### Concrete fixtures for witnesses and counterexamples -/

/-- A concrete stand-in for Python's salted string hash. -/
def hashF0 : String → Int := fun _ => 0

/-- A fetcher that always succeeds with an empty page. -/
def fetchOk : Nat → Except String Response := fun _ => .ok ⟨200, []⟩

/-- A fetcher whose first request raises a connection error. -/
def fetchErr : Nat → Except String Response := fun _ => .error "Connection refused"

/-- A minimal container with a title and one `div` price. -/
def eW : Elem := ⟨"div", [], some "A", ["₹2"], [], [], none, none⟩

/-- A container with no text at all. -/
def eEmpty : Elem := ⟨"div", [], none, [], [], [], none, none⟩

/-- A container whose rating text node `.★` makes `float('.')` raise even
though title and selling price extract fine. -/
def c4elem : Elem := ⟨"div", [("data-id", "1")], some "Phone", [], [], ["₹100", ".★"], none, none⟩

/-- A container whose text holds a second, strictly greater price (200) after
the selling price (100), while the first text-node price equals the selling
price. -/
def c3elem : Elem := ⟨"div", [], some "A", ["₹100"], [], ["₹100", "₹200"], none, none⟩

/-- A container whose first text-node price (150) exceeds the `div` selling
price (100), so `mrp` and `discount` are populated. -/
def eM : Elem := ⟨"div", [], some "X", ["₹100"], [], ["₹150"], none, none⟩

/-- A container with a protocol-relative image source. -/
def eI : Elem := ⟨"div", [], some "B", ["₹7"], [], [], some "//x.png", none⟩

/-- A page with a non-`div` element carrying `data-id` and a `div` with a
`product` class. -/
def pX : List Elem :=
  [⟨"span", [("data-id", "7")], none, [], [], [], none, none⟩,
   ⟨"div", [("class", "product-card")], none, [], [], [], none, none⟩]

/-- The record extracted from `eW` with `hashF0` and query `q`. -/
def dW : Dict :=
  [("title", .str "A"), ("sellingPrice", .int 2), ("productId", .str "live_0"),
   ("description", .str "Real-time q product from Flipkart with latest pricing and availability."),
   ("inStock", .bool true), ("category", .str "general"), ("brand", .str "A"),
   ("availability", .str "In Stock"), ("source", .str "flipkart_live")]

/-- The record extracted from `eM` with `hashF0` and query `q`. -/
def dM : Dict :=
  [("title", .str "X"), ("sellingPrice", .int 100), ("mrp", .int 150),
   ("productId", .str "live_0"),
   ("description", .str "Real-time q product from Flipkart with latest pricing and availability."),
   ("inStock", .bool true), ("category", .str "general"), ("brand", .str "X"),
   ("availability", .str "In Stock"), ("source", .str "flipkart_live"),
   ("discount", .int (pyRound ((((150 : Int) : ℚ) - ((100 : Int) : ℚ)) / ((150 : Int) : ℚ) * 100)))]

/-- The record extracted from `eI` with `hashF0` and query `q`. -/
def dI : Dict :=
  [("title", .str "B"), ("sellingPrice", .int 7), ("imageUrl", .str "https://x.png"),
   ("productId", .str "live_0"),
   ("description", .str "Real-time q product from Flipkart with latest pricing and availability."),
   ("inStock", .bool true), ("category", .str "general"), ("brand", .str "B"),
   ("availability", .str "In Stock"), ("source", .str "flipkart_live")]

/-! ### Dictionary lemmas -/

theorem dget_dset_self (k : String) (v : Value) (d : Dict) :
    dget k (dset k v d) = some v := by
  induction d with
  | nil => simp [dget, dset]
  | cons p t ih =>
    by_cases h : p.1 = k
    · simp [dset, dget, h]
    · simp [dset, dget, h, ih]

theorem dget_dset_ne (k k' : String) (v : Value) (d : Dict) (h : k' ≠ k) :
    dget k (dset k' v d) = dget k d := by
  induction d with
  | nil => simp [dget, dset, h]
  | cons p t ih =>
    by_cases hp : p.1 = k'
    · simp [dset, dget, hp, h, hp.symm ▸ h]
    · simp only [dset, hp, if_false, dget]
      by_cases hk : p.1 = k
      · simp [dget, hk]
      · simp [dget, hk, ih]

/-! ### Preservation lemmas: each step only writes its own keys -/

theorem titleStep_dget_ne (e : Elem) (d : Dict) (k : String) (h : k ≠ "title") :
    dget k (titleStep e d) = dget k d := by
  unfold titleStep
  cases e.titleText with
  | none => rfl
  | some t => exact dget_dset_ne k "title" _ d (Ne.symm h)

theorem priceStep_ok_dget_ne (e : Elem) (d d' : Dict) (k : String)
    (hk : k ≠ "sellingPrice") (h : priceStep e d = .ok d') :
    dget k d' = dget k d := by
  unfold priceStep at h
  split at h
  · injection h with h; subst h; rfl
  · split at h
    · injection h with h; subst h; rfl
    · split at h
      · exact Except.noConfusion h
      · injection h with h; subst h
        exact dget_dset_ne k "sellingPrice" _ d (Ne.symm hk)

theorem mrpStep_ok_dget_ne (e : Elem) (d d' : Dict) (k : String)
    (hk : k ≠ "mrp") (h : mrpStep e d = .ok d') :
    dget k d' = dget k d := by
  unfold mrpStep at h
  split at h
  · injection h with h; subst h; rfl
  · split at h
    · injection h with h; subst h; rfl
    · split at h
      · exact Except.noConfusion h
      · injection h with h; subst h
        split
        · exact dget_dset_ne k "mrp" _ d (Ne.symm hk)
        · rfl

theorem imgStep_dget_ne (e : Elem) (d : Dict) (k : String) (h : k ≠ "imageUrl") :
    dget k (imgStep e d) = dget k d := by
  unfold imgStep
  cases e.imgSrc with
  | none => rfl
  | some u =>
    by_cases hu : u = ""
    · simp [hu]
    · simp [hu, dget_dset_ne k "imageUrl" _ d (Ne.symm h)]

theorem linkStep_dget_ne (e : Elem) (d : Dict) (k : String)
    (h1 : k ≠ "url") (h2 : k ≠ "flipkartUrl") :
    dget k (linkStep e d) = dget k d := by
  unfold linkStep
  cases e.linkHref with
  | none => rfl
  | some u =>
    simp only
    rw [dget_dset_ne k "flipkartUrl" _ _ (Ne.symm h2), dget_dset_ne k "url" _ _ (Ne.symm h1)]

theorem ratingStep_ok_dget_ne (e : Elem) (d d' : Dict) (k : String)
    (hk : k ≠ "rating") (h : ratingStep e d = .ok d') :
    dget k d' = dget k d := by
  unfold ratingStep at h
  split at h
  · injection h with h; subst h; rfl
  · split at h
    · injection h with h; subst h; rfl
    · split at h
      · exact Except.noConfusion h
      · injection h with h; subst h
        exact dget_dset_ne k "rating" _ d (Ne.symm hk)

theorem defaultsStep_dget_ne (hashF : String → Int) (query : String) (d : Dict) (k : String)
    (h1 : k ≠ "productId") (h2 : k ≠ "description") (h3 : k ≠ "inStock")
    (h4 : k ≠ "category") (h5 : k ≠ "brand") (h6 : k ≠ "availability")
    (h7 : k ≠ "source") :
    dget k (defaultsStep hashF query d) = dget k d := by
  unfold defaultsStep
  simp only
  rw [dget_dset_ne k "source" _ _ (Ne.symm h7), dget_dset_ne k "availability" _ _ (Ne.symm h6),
    dget_dset_ne k "brand" _ _ (Ne.symm h5), dget_dset_ne k "category" _ _ (Ne.symm h4),
    dget_dset_ne k "inStock" _ _ (Ne.symm h3), dget_dset_ne k "description" _ _ (Ne.symm h2),
    dget_dset_ne k "productId" _ _ (Ne.symm h1)]

theorem discountStep_dget_ne (d : Dict) (k : String) (h : k ≠ "discount") :
    dget k (discountStep d) = dget k d := by
  unfold discountStep
  split
  · exact dget_dset_ne k "discount" _ d (Ne.symm h)
  · rfl

/-! ### Characterization lemmas for the steps -/

theorem titleStep_dget_title (e : Elem) (d : Dict) :
    dget "title" (titleStep e d) =
      (match e.titleText with
       | some t => some (.str (pyStrTake t 100))
       | none => dget "title" d) := by
  unfold titleStep
  cases e.titleText with
  | none => rfl
  | some t => simp [dget_dset_self]

theorem pyIntParse_nonneg (cs : List Char) (n : Int) (h : pyIntParse cs = some n) :
    0 ≤ n := by
  unfold pyIntParse at h
  split at h
  · injection h with h
    subst h
    exact Int.ofNat_nonneg _
  · exact Option.noConfusion h

theorem parsePriceInt_nonneg (t : String) (n : Int) (h : parsePriceInt t = some n) :
    0 ≤ n := by
  unfold parsePriceInt at h
  cases hc : findPriceCapture t.data with
  | none => rw [hc] at h; exact Option.noConfusion h
  | some cap =>
    rw [hc] at h
    exact pyIntParse_nonneg _ _ h

theorem sellingOf_nonneg (e : Elem) (n : Int) (h : sellingOf e = some n) : 0 ≤ n := by
  unfold sellingOf at h
  cases hp : priceElemText e with
  | none => rw [hp] at h; exact Option.noConfusion h
  | some t =>
    rw [hp] at h
    exact parsePriceInt_nonneg t n h

theorem priceStep_of_sellingOf (e : Elem) (n : Int) (h : sellingOf e = some n) (d : Dict) :
    priceStep e d = .ok (dset "sellingPrice" (.int n) d) := by
  unfold sellingOf at h
  cases hp : priceElemText e with
  | none => rw [hp] at h; exact Option.noConfusion h
  | some t =>
    rw [hp] at h
    simp only [Option.some_bind] at h
    unfold parsePriceInt at h
    cases hc : findPriceCapture t.data with
    | none => rw [hc] at h; exact Option.noConfusion h
    | some cap =>
      rw [hc] at h
      simp only [Option.some_bind] at h
      unfold priceStep
      simp only [hp, hc, h]

theorem priceStep_ok_sp (e : Elem) (d d' : Dict) (h0 : dget "sellingPrice" d = none)
    (h : priceStep e d = .ok d') :
    dget "sellingPrice" d' = (sellingOf e).map Value.int := by
  unfold priceStep at h
  split at h
  next hpe =>
    injection h with h; subst h
    simp [sellingOf, hpe, h0]
  next t hpe =>
    split at h
    next hc =>
      injection h with h; subst h
      simp [sellingOf, hpe, parsePriceInt, hc, h0]
    next cap hc =>
      split at h
      next hi => exact Except.noConfusion h
      next n hi =>
        injection h with h; subst h
        rw [dget_dset_self]
        simp only [sellingOf, hpe, Option.some_bind, parsePriceInt, hc, hi, Option.map_some']

theorem mrpStep_ok_mrp (e : Elem) (d d' : Dict) (h0 : dget "mrp" d = none)
    (h : mrpStep e d = .ok d') :
    dget "mrp" d' = (mrpOf e (intGetD (dget "sellingPrice" d) 0)).map Value.int := by
  unfold mrpStep at h
  split at h
  next hpe =>
    injection h with h; subst h
    simp [mrpOf, hpe, h0]
  next t hpe =>
    split at h
    next hc =>
      injection h with h; subst h
      simp [mrpOf, hpe, parsePriceInt, hc, h0]
    next cap hc =>
      split at h
      next hi => exact Except.noConfusion h
      next m hi =>
        injection h with h; subst h
        by_cases hlt : intGetD (dget "sellingPrice" d) 0 < m
        · rw [if_pos hlt, dget_dset_self]
          simp only [mrpOf, hpe, Option.some_bind, parsePriceInt, hc, hi, if_pos hlt,
            Option.map_some']
        · rw [if_neg hlt, h0]
          simp only [mrpOf, hpe, Option.some_bind, parsePriceInt, hc, hi, if_neg hlt,
            Option.map_none']

theorem mrpStep_ok_of_parseOk (e : Elem) (h : mrpParseOk e = true) (d : Dict) :
    ∃ d', mrpStep e d = .ok d' := by
  unfold mrpParseOk at h
  split at h
  next hpe =>
    refine ⟨d, ?_⟩
    unfold mrpStep
    simp only [hpe]
  next t hpe =>
    split at h
    next hc =>
      refine ⟨d, ?_⟩
      unfold mrpStep
      simp only [hpe, hc]
    next cap hc =>
      obtain ⟨m, hm⟩ := Option.isSome_iff_exists.mp h
      refine ⟨if intGetD (dget "sellingPrice" d) 0 < m then dset "mrp" (Value.int m) d else d, ?_⟩
      unfold mrpStep
      simp only [hpe, hc, hm]

theorem ratingStep_ok_of_parseOk (e : Elem) (h : ratingParseOk e = true) (d : Dict) :
    ∃ d', ratingStep e d = .ok d' := by
  unfold ratingParseOk at h
  split at h
  next hpe =>
    refine ⟨d, ?_⟩
    unfold ratingStep
    simp only [hpe]
  next t hpe =>
    split at h
    next hr =>
      refine ⟨d, ?_⟩
      unfold ratingStep
      simp only [hpe, hr]
    next run hr =>
      obtain ⟨r, hf⟩ := Option.isSome_iff_exists.mp h
      refine ⟨dset "rating" (Value.rat r) d, ?_⟩
      unfold ratingStep
      simp only [hpe, hr, hf]

theorem imgStep_dget_img (e : Elem) (d : Dict) (u : String)
    (hs : e.imgSrc = some u) (hu : u ≠ "") :
    dget "imageUrl" (imgStep e d) = some (.str (rewriteImgUrl u)) := by
  unfold imgStep
  rw [hs]
  simp [hu, dget_dset_self]

/-! ### Unfolding `extract_product_info` into its stage results -/

theorem extract_some_iff (hashF : String → Int) (e : Elem) (q : String) (d : Dict) :
    extractProductInfo hashF e q = some d ↔
      ∃ d2 d3 d6, priceStep e (titleStep e []) = .ok d2 ∧ mrpStep e d2 = .ok d3 ∧
        ratingStep e (linkStep e (imgStep e d3)) = .ok d6 ∧
        d = discountStep (defaultsStep hashF q d6) ∧
        (truthy (dget "title" d) && truthy (dget "sellingPrice" d)) = true := by
  constructor
  · intro h
    unfold extractProductInfo at h
    cases hcore : extractCore hashF e q with
    | error u => simp only [hcore] at h; exact Option.noConfusion h
    | ok r =>
      simp only [hcore] at h
      unfold extractCore at hcore
      cases hp : priceStep e (titleStep e []) with
      | error u => simp only [hp] at hcore; exact Except.noConfusion hcore
      | ok d2 =>
        simp only [hp] at hcore
        cases hm : mrpStep e d2 with
        | error u => simp only [hm] at hcore; exact Except.noConfusion hcore
        | ok d3 =>
          simp only [hm] at hcore
          cases hr : ratingStep e (linkStep e (imgStep e d3)) with
          | error u => simp only [hr] at hcore; exact Except.noConfusion hcore
          | ok d6 =>
            simp only [hr, Except.ok.injEq] at hcore
            subst hcore
            by_cases hgate :
                (truthy (dget "title" (discountStep (defaultsStep hashF q d6))) &&
                  truthy (dget "sellingPrice" (discountStep (defaultsStep hashF q d6)))) = true
            · rw [if_pos hgate] at h
              injection h with h
              exact ⟨d2, d3, d6, rfl, hm, hr, h.symm, by rw [← h]; exact hgate⟩
            · rw [if_neg hgate] at h
              exact Option.noConfusion h
  · rintro ⟨d2, d3, d6, h1, h2, h3, rfl, hgate⟩
    unfold extractProductInfo extractCore
    simp only [h1, h2, h3]
    simp [hgate]

theorem intGetD_map_int (o : Option Int) (dflt : Int) :
    intGetD (o.map Value.int) dflt = o.getD dflt := by
  cases o <;> rfl

/-- The `title` entry of a returned record is exactly the truncated title
text of the container. -/
theorem extract_final_title (hashF : String → Int) (e : Elem) (q : String) (d : Dict)
    (h : extractProductInfo hashF e q = some d) :
    dget "title" d =
      (match e.titleText with
       | some t => some (Value.str (pyStrTake t 100))
       | none => none) := by
  obtain ⟨d2, d3, d6, h1, h2, h3, rfl, -⟩ := (extract_some_iff hashF e q d).mp h
  rw [discountStep_dget_ne _ _ (by decide),
    defaultsStep_dget_ne _ _ _ _ (by decide) (by decide) (by decide) (by decide) (by decide)
      (by decide) (by decide),
    ratingStep_ok_dget_ne _ _ _ _ (by decide) h3,
    linkStep_dget_ne _ _ _ (by decide) (by decide),
    imgStep_dget_ne _ _ _ (by decide),
    mrpStep_ok_dget_ne _ _ _ _ (by decide) h2,
    priceStep_ok_dget_ne _ _ _ _ (by decide) h1,
    titleStep_dget_title]
  cases e.titleText <;> rfl

/-- The `sellingPrice` entry of a returned record is exactly the parsed
selling price of the container. -/
theorem extract_final_sp (hashF : String → Int) (e : Elem) (q : String) (d : Dict)
    (h : extractProductInfo hashF e q = some d) :
    dget "sellingPrice" d = (sellingOf e).map Value.int := by
  obtain ⟨d2, d3, d6, h1, h2, h3, rfl, -⟩ := (extract_some_iff hashF e q d).mp h
  rw [discountStep_dget_ne _ _ (by decide),
    defaultsStep_dget_ne _ _ _ _ (by decide) (by decide) (by decide) (by decide) (by decide)
      (by decide) (by decide),
    ratingStep_ok_dget_ne _ _ _ _ (by decide) h3,
    linkStep_dget_ne _ _ _ (by decide) (by decide),
    imgStep_dget_ne _ _ _ (by decide),
    mrpStep_ok_dget_ne _ _ _ _ (by decide) h2]
  exact priceStep_ok_sp e _ d2 (by rw [titleStep_dget_ne e [] _ (by decide)]; rfl) h1

/-- The `mrp` entry of a returned record is the result of the first-text-node
re-scan, compared against the parsed selling price (0 when absent). -/
theorem extract_final_mrp (hashF : String → Int) (e : Elem) (q : String) (d : Dict)
    (h : extractProductInfo hashF e q = some d) :
    dget "mrp" d = (mrpOf e ((sellingOf e).getD 0)).map Value.int := by
  obtain ⟨d2, d3, d6, h1, h2, h3, rfl, -⟩ := (extract_some_iff hashF e q d).mp h
  have hsp0 : dget "sellingPrice" (titleStep e []) = none := by
    rw [titleStep_dget_ne e [] _ (by decide)]
    rfl
  have hmrp0 : dget "mrp" d2 = none := by
    rw [priceStep_ok_dget_ne _ _ _ _ (by decide) h1, titleStep_dget_ne e [] _ (by decide)]
    rfl
  have hsp2 : dget "sellingPrice" d2 = (sellingOf e).map Value.int :=
    priceStep_ok_sp e _ d2 hsp0 h1
  rw [discountStep_dget_ne _ _ (by decide),
    defaultsStep_dget_ne _ _ _ _ (by decide) (by decide) (by decide) (by decide) (by decide)
      (by decide) (by decide),
    ratingStep_ok_dget_ne _ _ _ _ (by decide) h3,
    linkStep_dget_ne _ _ _ (by decide) (by decide),
    imgStep_dget_ne _ _ _ (by decide),
    mrpStep_ok_mrp e d2 d3 hmrp0 h2, hsp2, intGetD_map_int]

/-- A returned record never contains the key `price`. -/
theorem extract_final_price (hashF : String → Int) (e : Elem) (q : String) (d : Dict)
    (h : extractProductInfo hashF e q = some d) :
    dget "price" d = none := by
  obtain ⟨d2, d3, d6, h1, h2, h3, rfl, -⟩ := (extract_some_iff hashF e q d).mp h
  rw [discountStep_dget_ne _ _ (by decide),
    defaultsStep_dget_ne _ _ _ _ (by decide) (by decide) (by decide) (by decide) (by decide)
      (by decide) (by decide),
    ratingStep_ok_dget_ne _ _ _ _ (by decide) h3,
    linkStep_dget_ne _ _ _ (by decide) (by decide),
    imgStep_dget_ne _ _ _ (by decide),
    mrpStep_ok_dget_ne _ _ _ _ (by decide) h2,
    priceStep_ok_dget_ne _ _ _ _ (by decide) h1,
    titleStep_dget_ne e [] _ (by decide)]
  rfl

/-- The `imageUrl` entry of a returned record, when the container has a
truthy `img` source, is the rewritten source URL. -/
theorem extract_final_img (hashF : String → Int) (e : Elem) (q : String) (d : Dict) (u : String)
    (h : extractProductInfo hashF e q = some d) (hs : e.imgSrc = some u) (hu : u ≠ "") :
    dget "imageUrl" d = some (.str (rewriteImgUrl u)) := by
  obtain ⟨d2, d3, d6, h1, h2, h3, rfl, -⟩ := (extract_some_iff hashF e q d).mp h
  rw [discountStep_dget_ne _ _ (by decide),
    defaultsStep_dget_ne _ _ _ _ (by decide) (by decide) (by decide) (by decide) (by decide)
      (by decide) (by decide),
    ratingStep_ok_dget_ne _ _ _ _ (by decide) h3,
    linkStep_dget_ne _ _ _ (by decide) (by decide),
    imgStep_dget_img e d3 u hs hu]

/-! ### The retention filter of `parse_search_results` -/

/-- Since no extracted record ever carries a `price` key, the per-container
loop body never appends anything. -/
theorem parseStep_eq_acc (hashF : String → Int) (q : String) (acc : List Dict) (e : Elem) :
    parseStep hashF q acc e = acc := by
  unfold parseStep
  cases hx : extractProductInfo hashF e q with
  | none => rfl
  | some p =>
    have hp := extract_final_price hashF e q p hx
    simp [hp, truthy]

theorem foldl_parseStep (hashF : String → Int) (q : String) (l : List Elem) (acc : List Dict) :
    l.foldl (parseStep hashF q) acc = acc := by
  induction l generalizing acc with
  | nil => rfl
  | cons e t ih =>
    rw [List.foldl_cons, parseStep_eq_acc]
    exact ih acc

/-- `parse_search_results` returns the empty list on every page. -/
theorem parse_eq_nil (hashF : String → Int) (page : List Elem) (q : String) :
    parseSearchResults hashF page q = [] :=
  foldl_parseStep hashF q _ []

/-! ### The page loop -/

theorem searchLoop_ok_acc (fetch : Nat → Except String Response) (hashF : String → Int)
    (q : String) (m : Int) (ps : List Nat) (acc : List Dict) (fetched : Nat)
    (l : List Dict) (k : Nat)
    (h : searchLoop fetch hashF q m ps acc fetched = .ok (l, k)) : l = acc := by
  induction ps generalizing acc fetched with
  | nil =>
    unfold searchLoop at h
    injection h with h
    injection h with h1 h2
    exact h1.symm
  | cons p rest ih =>
    unfold searchLoop at h
    cases hf : fetch p with
    | error err => simp only [hf] at h; exact Except.noConfusion h
    | ok resp =>
      simp only [hf] at h
      split at h
      · injection h with h
        injection h with h1 h2
        exact h1.symm
      · split at h
        · injection h with h
          injection h with h1 h2
          rw [parse_eq_nil, List.append_nil] at h1
          exact h1.symm
        · have := ih _ _ h
          rw [parse_eq_nil, List.append_nil] at this
          exact this

theorem takeInt_nil {α : Type} (m : Int) : takeInt ([] : List α) m = [] := by
  unfold takeInt
  split <;> simp

/-- When every request succeeds with status 200 and at least one result is
wanted, the loop issues a request for every planned page. -/
theorem searchLoop_all200 (fetch : Nat → Except String Response) (hashF : String → Int)
    (q : String) (m : Int) (hm : 1 ≤ m)
    (hf : ∀ p, ∃ r, fetch p = .ok r ∧ r.statusCode = 200)
    (ps : List Nat) (fetched : Nat) :
    searchLoop fetch hashF q m ps [] fetched = .ok ([], fetched + ps.length) := by
  induction ps generalizing fetched with
  | nil => simp [searchLoop]
  | cons p rest ih =>
    obtain ⟨r, hr, hst⟩ := hf p
    unfold searchLoop
    simp only [hr, parse_eq_nil, List.append_nil, List.length_cons]
    rw [if_neg (by rw [hst]; simp), if_neg (by simp; omega), ih (fetched + 1)]
    rw [show fetched + 1 + rest.length = fetched + (rest.length + 1) from by omega]

/-! ### Claim C1 -/

/-- C1: for every page and query, `parse_search_results` returns the empty
list — the retention filter at line 92 requires a truthy `price` key, but
`extract_product_info` only ever sets `sellingPrice` — and hence every
success envelope has `products = []` and `total = 0`. -/
theorem c1_parse_always_empty (hashF : String → Int) (page : List Elem) (q : String)
    (fetch : Nat → Except String Response) (m : Int) :
    parseSearchResults hashF page q = [] ∧
    (searchProducts fetch hashF q m).products = [] ∧
    ((searchProducts fetch hashF q m).success = true →
      (searchProducts fetch hashF q m).total = some 0) := by
  refine ⟨parse_eq_nil hashF page q, ?_, ?_⟩
  · unfold searchProducts
    cases hl : searchLoop fetch hashF q m (pageRange m) [] 0 with
    | error e => rfl
    | ok v =>
      obtain ⟨l, k⟩ := v
      obtain rfl : l = [] := searchLoop_ok_acc fetch hashF q m _ _ _ _ _ hl
      simp [takeInt_nil]
  · unfold searchProducts
    cases hl : searchLoop fetch hashF q m (pageRange m) [] 0 with
    | error e => intro hcontra; exact Bool.noConfusion hcontra
    | ok v =>
      obtain ⟨l, k⟩ := v
      obtain rfl : l = [] := searchLoop_ok_acc fetch hashF q m _ _ _ _ _ hl
      intro _
      rfl

/-- Witness for C1 at a concrete always-200 fetcher and concrete page. -/
theorem c1_parse_always_empty_witness :
    parseSearchResults hashF0 pX "q" = [] ∧
    (searchProducts fetchOk hashF0 "q" 25).products = [] ∧
    (searchProducts fetchOk hashF0 "q" 25).total = some 0 := by
  have h := c1_parse_always_empty hashF0 pX "q" fetchOk 25
  exact ⟨h.1, h.2.1, h.2.2 rfl⟩

/-! ### Claim C5 -/

/-- C5: any exception raised inside `search_products` (e.g. a network error
raised by a request) is not re-raised: the result is the failure envelope
with `success = false`, empty products, the exception message and the
original query. -/
theorem c5_exception_envelope (fetch : Nat → Except String Response) (hashF : String → Int)
    (q : String) (m : Int) (err : String)
    (h : searchLoop fetch hashF q m (pageRange m) [] 0 = .error err) :
    searchProducts fetch hashF q m = ⟨false, [], none, q, none, some err⟩ := by
  unfold searchProducts
  rw [h]

/-- Witness for C5: a connection error on the first request. -/
theorem c5_exception_envelope_witness :
    searchProducts fetchErr hashF0 "redmi" 25 =
      ⟨false, [], none, "redmi", none, some "Connection refused"⟩ :=
  c5_exception_envelope fetchErr hashF0 "redmi" 25 "Connection refused" rfl

/-! ### Claim C6 -/

/-- C6: `pages_to_scrape` equals `min(3, floor(max_results / 10) + 1)` — in
particular 3 for `max_results = 25` and 1 for `max_results = 5` — and when
every request succeeds with status 200 (and at least one result is wanted),
the loop issues exactly that many page requests. -/
theorem c6_pages_to_scrape (m : Int) (fetch : Nat → Except String Response)
    (hashF : String → Int) (q : String) (hm : 1 ≤ m)
    (hf : ∀ p, ∃ r, fetch p = .ok r ∧ r.statusCode = 200) :
    pagesToScrape m = min 3 (Int.fdiv m 10 + 1) ∧
    pagesToScrape 25 = 3 ∧ pagesToScrape 5 = 1 ∧
    searchLoop fetch hashF q m (pageRange m) [] 0 = .ok ([], (pagesToScrape m).toNat) := by
  refine ⟨rfl, by decide, by decide, ?_⟩
  rw [searchLoop_all200 fetch hashF q m hm hf (pageRange m) 0]
  simp [pageRange]

/-- Witness for C6 at `max_results = 25` and an always-200 fetcher. -/
theorem c6_pages_to_scrape_witness :
    searchLoop fetchOk hashF0 "q" 25 (pageRange 25) [] 0 = .ok ([], 3) ∧
    pagesToScrape 25 = 3 ∧ pagesToScrape 5 = 1 := by
  have h := c6_pages_to_scrape 25 fetchOk hashF0 "q" (by decide)
    (fun p => ⟨⟨200, []⟩, rfl, rfl⟩)
  refine ⟨?_, h.2.1, h.2.2.1⟩
  rw [h.2.2.2, show (pagesToScrape 25).toNat = 3 from rfl]

/-! ### Claim C10 -/

/-- C10 counterexample: the code restricts all three selection tiers to `div`
elements, so on a page holding a non-`div` element carrying `data-id` (and a
`div` with a `product` class) the selection claimed for "all elements"
differs from the code's. -/
theorem c10_counterexample : claimFindCandidates pX ≠ findCandidates pX := by decide

/-- C10 amended: candidate selection applies the three class heuristics in
strict priority order with the first non-empty match winning, but each tier
considers only `div` elements; at most 25 containers per page are
processed. -/
theorem c10_selection_amended (page : List Elem) (hashF : String → Int) (q : String) :
    findCandidates page =
      (if page.filter (fun e => e.tag = "div" && hasDataId e) ≠ [] then
        page.filter (fun e => e.tag = "div" && hasDataId e)
      else if page.filter (fun e => e.tag = "div" && classContainsI e "product") ≠ [] then
        page.filter (fun e => e.tag = "div" && classContainsI e "product")
      else page.filter (fun e => e.tag = "div" && classContainsI e "item")) ∧
    ((findCandidates page).take 25).length ≤ 25 ∧
    parseSearchResults hashF page q = ((findCandidates page).take 25).foldl (parseStep hashF q) [] := by
  refine ⟨?_, ?_, rfl⟩
  · unfold findCandidates pyOrList
    by_cases hA : page.filter (fun e => e.tag = "div" && hasDataId e) = []
    · by_cases hB : page.filter (fun e => e.tag = "div" && classContainsI e "product") = []
      · simp [hA, hB]
      · simp [hA, hB]
    · simp [hA]
  · rw [List.length_take]
    exact min_le_left _ _

/-! ### Claim C2 -/

/-- C2: a record is returned only when both `title` and `sellingPrice` ended
up populated and truthy; in particular a container lacking both title text
and selling-price text yields `None`. -/
theorem c2_validity_gate (hashF : String → Int) (e : Elem) (q : String) :
    (∀ d, extractProductInfo hashF e q = some d →
      truthy (dget "title" d) = true ∧ truthy (dget "sellingPrice" d) = true) ∧
    ((e.titleText = none ∨ e.titleText = some "") →
      e.divStrings.all (fun t => !matchesPrice t) = true →
      e.spanStrings.all (fun t => !matchesPrice t) = true →
      e.textNodes.all (fun t => !matchesPrice t) = true →
      extractProductInfo hashF e q = none) := by
  constructor
  · intro d hd
    obtain ⟨d2, d3, d6, -, -, -, -, hg⟩ := (extract_some_iff hashF e q d).mp hd
    simp only [Bool.and_eq_true] at hg
    exact hg
  · intro ht hdiv hspan htext
    have hto : ∀ (l : List String), l.all (fun t => !matchesPrice t) = true →
        l.find? matchesPrice = none := by
      intro l hl
      rw [List.find?_eq_none]
      intro x hx
      have hx2 := List.all_eq_true.mp hl x hx
      simp only [Bool.not_eq_true'] at hx2
      simp [hx2]
    have hdivn := hto _ hdiv
    have hspann := hto _ hspan
    have htextn := hto _ htext
    have hpe : priceElemText e = none := by
      unfold priceElemText pyOrOpt
      simp only [hdivn, hspann, htextn]
    have hft : firstTextPrice e = none := htextn
    have hps : ∀ d0 : Dict, priceStep e d0 = .ok d0 := fun d0 => by
      unfold priceStep
      simp only [hpe]
    have hms : ∀ d0 : Dict, mrpStep e d0 = .ok d0 := fun d0 => by
      unfold mrpStep
      simp only [hft]
    unfold extractProductInfo extractCore
    simp only [hps, hms]
    cases hr : ratingStep e (linkStep e (imgStep e (titleStep e []))) with
    | error u => simp only [hr]
    | ok d6 =>
      simp only [hr]
      have hsp : dget "sellingPrice" (discountStep (defaultsStep hashF q d6)) = none := by
        rw [discountStep_dget_ne _ _ (by decide),
          defaultsStep_dget_ne _ _ _ _ (by decide) (by decide) (by decide) (by decide) (by decide)
            (by decide) (by decide),
          ratingStep_ok_dget_ne _ _ _ _ (by decide) hr,
          linkStep_dget_ne _ _ _ (by decide) (by decide),
          imgStep_dget_ne _ _ _ (by decide),
          titleStep_dget_ne e [] _ (by decide)]
        rfl
      rw [if_neg (by simp [hsp, truthy])]

/-- Witness for C2: a successful extraction has truthy title and price, and
the empty container extracts to `None`. -/
theorem c2_validity_gate_witness :
    (truthy (dget "title" dW) = true ∧ truthy (dget "sellingPrice" dW) = true) ∧
    extractProductInfo hashF0 eEmpty "q" = none := by
  refine ⟨(c2_validity_gate hashF0 eW "q").1 dW rfl, ?_⟩
  exact (c2_validity_gate hashF0 eEmpty "q").2 (Or.inl rfl) rfl rfl rfl

/-! ### Claim C7 -/

theorem takeWhile_all_eq {p : Char → Bool} (l : List Char) (h : ∀ c ∈ l, p c = true) :
    l.takeWhile p = l :=
  List.takeWhile_eq_self_iff.mpr h

theorem filter_ne_comma_eq (l : List Char) (h : ∀ c ∈ l, isDigitOrComma c = true) :
    l.filter (fun c => c ≠ ',') = l.filter Char.isDigit := by
  induction l with
  | nil => rfl
  | cons c t ih =>
    have hc := h c (List.mem_cons_self c t)
    have iht := ih (fun x hx => h x (List.mem_cons_of_mem c hx))
    by_cases hcc : c = ','
    · subst hcc
      simp only [List.filter_cons]
      rw [if_neg (by decide), if_neg (by decide)]
      exact iht
    · have hdig : c.isDigit = true := by
        unfold isDigitOrComma at hc
        simp [hcc] at hc
        exact hc
      simp only [List.filter_cons]
      rw [if_pos (by simp [hcc]), if_pos hdig, iht]

/-- C7: on text of the currency shape `₹` followed by digits and comma
separators (with at least one digit), price parsing strips the separators and
yields the integer with exactly those digits. -/
theorem c7_price_parse (ds : List Char) (h1 : ds ≠ [])
    (h2 : ∀ c ∈ ds, isDigitOrComma c = true) (h3 : ds.filter Char.isDigit ≠ []) :
    parsePriceInt (String.mk ('₹' :: ds)) =
      some (Int.ofNat (natVal (ds.filter Char.isDigit))) := by
  cases ds with
  | nil => exact absurd rfl h1
  | cons c0 cs =>
    have hc0 : isDigitOrComma c0 = true := h2 c0 (List.mem_cons_self _ _)
    unfold parsePriceInt
    show (findPriceCapture ('₹' :: c0 :: cs)).bind _ = _
    unfold findPriceCapture
    have hcond : ('₹' == '₹' &&
        (match c0 :: cs with | r :: _ => isDigitOrComma r | [] => false)) = true := by
      show ('₹' == '₹' && isDigitOrComma c0) = true
      rw [hc0]
      rfl
    rw [if_pos hcond]
    simp only [Option.some_bind]
    rw [takeWhile_all_eq _ h2, filter_ne_comma_eq _ h2]
    unfold pyIntParse
    rw [if_pos ⟨h3, List.all_eq_true.mpr fun x hx => (List.mem_filter.mp hx).2⟩]

/-- Witness for C7: parsing `₹12,345` yields 12345. -/
theorem c7_price_parse_witness : parsePriceInt "₹12,345" = some (12345 : Int) := by
  have h := c7_price_parse "12,345".data (by decide) (by decide) (by decide)
  have he : ("₹12,345" : String) = String.mk ('₹' :: "12,345".data) := rfl
  rw [he, h]
  rfl

/-! ### Claim C9 -/

theorem strStartsWith_prefix_append (p s : String) : strStartsWith (p ++ s) p = true := by
  unfold strStartsWith
  rw [String.data_append]
  exact List.isPrefixOf_iff_prefix.mpr (List.prefix_append _ _)

theorem append_assoc_str (a b c : String) : a ++ b ++ c = a ++ (b ++ c) := by
  apply String.ext
  rw [String.data_append, String.data_append, String.data_append, String.data_append,
    List.append_assoc]

/-- C9: the stored `imageUrl` is the `img` source rewritten: protocol-relative
URLs get the `https` scheme, root-relative URLs get the site base origin
prefix, and any other URL is stored unchanged. -/
theorem c9_image_rewrite (hashF : String → Int) (e : Elem) (q : String) (d : Dict) (u : String) :
    (extractProductInfo hashF e q = some d → e.imgSrc = some u → u ≠ "" →
      dget "imageUrl" d = some (.str (rewriteImgUrl u))) ∧
    (∀ r : String, rewriteImgUrl ("//" ++ r) = "https://" ++ r) ∧
    (∀ r : String, strStartsWith r "/" = false →
      rewriteImgUrl ("/" ++ r) = "https://www.flipkart.com/" ++ r) ∧
    (strStartsWith u "/" = false → rewriteImgUrl u = u) := by
  refine ⟨fun h hs hu => extract_final_img hashF e q d u h hs hu, ?_, ?_, ?_⟩
  · intro r
    unfold rewriteImgUrl
    rw [if_pos (strStartsWith_prefix_append "//" r), ← append_assoc_str,
      show ("https:" ++ "//" : String) = "https://" from by decide]
  · intro r hr
    have hc : strStartsWith ("/" ++ r) "//" = false := by
      unfold strStartsWith at hr ⊢
      rw [String.data_append]
      show List.isPrefixOf ['/', '/'] ('/' :: r.data) = false
      simpa [List.isPrefixOf] using hr
    unfold rewriteImgUrl
    rw [if_neg (by simp [hc]), if_pos (strStartsWith_prefix_append "/" r), ← append_assoc_str,
      show ("https://www.flipkart.com" ++ "/" : String) = "https://www.flipkart.com/" from by decide]
  · intro h4
    have h2c : strStartsWith u "//" = false := by
      cases u with
      | mk l =>
        cases l with
        | nil => rfl
        | cons c l2 =>
          unfold strStartsWith at h4 ⊢
          show List.isPrefixOf ['/', '/'] (c :: l2) = false
          have h4' : (('/' == c) && List.isPrefixOf ([] : List Char) l2) = false := h4
          simp only [List.isPrefixOf] at h4' ⊢
          simp at h4'
          simp [h4']
    unfold rewriteImgUrl
    rw [if_neg (by simp [h2c]), if_neg (by simp [h4])]

/-- Witness for C9 on concrete URLs of all three shapes. -/
theorem c9_image_rewrite_witness :
    dget "imageUrl" dI = some (.str "https://x.png") ∧
    rewriteImgUrl ("//" ++ "a.png") = "https://" ++ "a.png" ∧
    rewriteImgUrl ("/" ++ "img/x.png") = "https://www.flipkart.com/" ++ "img/x.png" ∧
    rewriteImgUrl "x.png" = "x.png" := by
  refine ⟨?_, (c9_image_rewrite hashF0 eI "q" dI "//x.png").2.1 "a.png",
    (c9_image_rewrite hashF0 eI "q" dI "//x.png").2.2.1 "img/x.png" (by decide),
    (c9_image_rewrite hashF0 eI "q" dI "x.png").2.2.2 (by decide)⟩
  have h := (c9_image_rewrite hashF0 eI "q" dI "//x.png").1 rfl rfl (by decide)
  exact h.trans rfl

/-! ### Shared facts about `mrpOf` and truthiness -/

theorem mrpOf_eq_some (e : Elem) (sp v : Int) :
    mrpOf e sp = some v ↔
      ∃ t, firstTextPrice e = some t ∧ parsePriceInt t = some v ∧ sp < v := by
  unfold mrpOf
  cases hft : firstTextPrice e with
  | none => simp
  | some t =>
    simp only [Option.some_bind]
    constructor
    · intro hL
      cases hp : parsePriceInt t with
      | none => rw [hp] at hL; exact Option.noConfusion hL
      | some w =>
        rw [hp] at hL
        simp only [Option.some_bind] at hL
        by_cases hlt : sp < w
        · rw [if_pos hlt] at hL
          injection hL with hL
          subst hL
          exact ⟨t, rfl, hp, hlt⟩
        · rw [if_neg hlt] at hL
          exact Option.noConfusion hL
    · rintro ⟨t2, ht2, hp2, hlt2⟩
      injection ht2 with ht2
      subst ht2
      rw [hp2]
      simp only [Option.some_bind]
      rw [if_pos hlt2]

theorem truthy_isSome (o : Option Value) (h : truthy o = true) : o.isSome = true := by
  cases o with
  | none => exact Bool.noConfusion h
  | some v => rfl

theorem sellingOf_getD_nonneg (e : Elem) : 0 ≤ (sellingOf e).getD 0 := by
  cases h : sellingOf e with
  | none => simp
  | some n => simpa using sellingOf_nonneg e n h

/-- Any `mrp` value of a returned record is strictly above the parsed selling
price. -/
theorem extract_mrp_val (hashF : String → Int) (e : Elem) (q : String) (d : Dict)
    (h : extractProductInfo hashF e q = some d) (v : Int)
    (hv : dget "mrp" d = some (.int v)) : (sellingOf e).getD 0 < v := by
  have hm := extract_final_mrp hashF e q d h
  rw [hv] at hm
  cases hmo : mrpOf e ((sellingOf e).getD 0) with
  | none => rw [hmo] at hm; exact Option.noConfusion hm
  | some w =>
    rw [hmo] at hm
    simp only [Option.map_some'] at hm
    injection hm with hm
    injection hm with hm
    subst hm
    obtain ⟨t, -, -, hlt⟩ := (mrpOf_eq_some e _ _).mp hmo
    exact hlt

theorem pyStrTake_ne_empty (t : String) (h : t ≠ "") (n : Nat) (hn : n ≠ 0) :
    pyStrTake t n ≠ "" := by
  unfold pyStrTake
  intro hc
  rw [String.ext_iff] at hc
  have hc2 : t.data.take n = [] := hc
  rw [List.take_eq_nil_iff] at hc2
  rcases hc2 with h1 | h2
  · exact hn h1
  · exact h (String.ext h2)

/-! ### Claim C3 -/

/-- C3 counterexample: in `c3elem` the container's text holds a second price
(200) strictly greater than the selling price (100), yet the extracted record
has no `mrp`, because the re-scan only looks at the *first* text node matching
the price pattern (which re-parses the selling price itself). -/
theorem c3_counterexample : c3ClaimHolds hashF0 c3elem "q" = false := by rfl

/-- C3 amended: the `mrp` entry of a returned record is populated if and only
if the *first* text node matching the price pattern parses to a value
strictly greater than the extracted selling price, in which case it holds
that value. -/
theorem c3_mrp_first_text (hashF : String → Int) (e : Elem) (q : String) (d : Dict)
    (h : extractProductInfo hashF e q = some d) :
    ((dget "mrp" d).isSome = true ↔
      ∃ t v, firstTextPrice e = some t ∧ parsePriceInt t = some v ∧
        intGetD (dget "sellingPrice" d) 0 < v) ∧
    (∀ t v, firstTextPrice e = some t → parsePriceInt t = some v →
      intGetD (dget "sellingPrice" d) 0 < v → dget "mrp" d = some (.int v)) := by
  have hsp := extract_final_sp hashF e q d h
  have hspval : intGetD (dget "sellingPrice" d) 0 = (sellingOf e).getD 0 := by
    rw [hsp, intGetD_map_int]
  have hmrp := extract_final_mrp hashF e q d h
  rw [hspval, hmrp]
  constructor
  · constructor
    · intro hs
      cases hmo : mrpOf e ((sellingOf e).getD 0) with
      | none => rw [hmo] at hs; simp at hs
      | some v =>
        obtain ⟨t, h1, h2, h3⟩ := (mrpOf_eq_some e _ v).mp hmo
        exact ⟨t, v, h1, h2, h3⟩
    · rintro ⟨t, v, h1, h2, h3⟩
      rw [(mrpOf_eq_some e _ v).mpr ⟨t, h1, h2, h3⟩]
      rfl
  · intro t v h1 h2 h3
    rw [(mrpOf_eq_some e _ v).mpr ⟨t, h1, h2, h3⟩]
    rfl

/-- Witness for the amended C3 at the container `eM`. -/
theorem c3_mrp_first_text_witness : (dget "mrp" dM).isSome = true := by
  have h := (c3_mrp_first_text hashF0 eM "q" dM rfl).1
  exact h.mpr ⟨"₹150", 150, rfl, rfl, by decide⟩

/-! ### Claim C4 -/

/-- C4 counterexample: in `c4elem` the title ("Phone") and selling price
(100) both extract fine, but the rating text node `.★` makes `float('.')`
raise inside the single `try` of `extract_product_info`, aborting the whole
container: the extractor returns `None`. -/
theorem c4_counterexample : c4ClaimHolds hashF0 c4elem "q" = false := by rfl

/-- C4 amended: a *missing* field never aborts the other fields, but a field
whose parse raises does abort the container; when no parse raises (MRP and
rating parses succeed or are absent) and title and selling price are truthy,
a record with both is returned. -/
theorem c4_independence_amended (hashF : String → Int) (e : Elem) (q : String)
    (t : String) (n : Int) (ht : e.titleText = some t) (ht2 : t ≠ "")
    (hs : sellingOf e = some n) (hn : n ≠ 0)
    (hm : mrpParseOk e = true) (hr : ratingParseOk e = true) :
    ∃ d, extractProductInfo hashF e q = some d ∧
      dget "title" d = some (.str (pyStrTake t 100)) ∧
      dget "sellingPrice" d = some (.int n) := by
  have hps : priceStep e (titleStep e []) = .ok (dset "sellingPrice" (.int n) (titleStep e [])) :=
    priceStep_of_sellingOf e n hs _
  obtain ⟨d3, h2⟩ := mrpStep_ok_of_parseOk e hm (dset "sellingPrice" (.int n) (titleStep e []))
  obtain ⟨d6, h3⟩ := ratingStep_ok_of_parseOk e hr (linkStep e (imgStep e d3))
  have hd_title : dget "title" (discountStep (defaultsStep hashF q d6)) =
      some (.str (pyStrTake t 100)) := by
    rw [discountStep_dget_ne _ _ (by decide),
      defaultsStep_dget_ne _ _ _ _ (by decide) (by decide) (by decide) (by decide) (by decide)
        (by decide) (by decide),
      ratingStep_ok_dget_ne _ _ _ _ (by decide) h3,
      linkStep_dget_ne _ _ _ (by decide) (by decide),
      imgStep_dget_ne _ _ _ (by decide),
      mrpStep_ok_dget_ne _ _ _ _ (by decide) h2,
      dget_dset_ne _ _ _ _ (by decide),
      titleStep_dget_title, ht]
  have hd_sp : dget "sellingPrice" (discountStep (defaultsStep hashF q d6)) =
      some (.int n) := by
    rw [discountStep_dget_ne _ _ (by decide),
      defaultsStep_dget_ne _ _ _ _ (by decide) (by decide) (by decide) (by decide) (by decide)
        (by decide) (by decide),
      ratingStep_ok_dget_ne _ _ _ _ (by decide) h3,
      linkStep_dget_ne _ _ _ (by decide) (by decide),
      imgStep_dget_ne _ _ _ (by decide),
      mrpStep_ok_dget_ne _ _ _ _ (by decide) h2,
      dget_dset_self]
  have hgate : (truthy (dget "title" (discountStep (defaultsStep hashF q d6))) &&
      truthy (dget "sellingPrice" (discountStep (defaultsStep hashF q d6)))) = true := by
    rw [hd_title, hd_sp]
    simp [truthy, pyStrTake_ne_empty t ht2 100 (by decide), hn]
  refine ⟨discountStep (defaultsStep hashF q d6), ?_, hd_title, hd_sp⟩
  exact (extract_some_iff hashF e q _).mpr ⟨_, d3, d6, hps, h2, h3, rfl, hgate⟩

/-- Witness for the amended C4 at the container `eW`. -/
theorem c4_independence_amended_witness :
    (extractProductInfo hashF0 eW "q").isSome = true := by
  obtain ⟨d, hd, -, -⟩ :=
    c4_independence_amended hashF0 eW "q" "A" 2 rfl (by decide) rfl (by decide) rfl rfl
  rw [hd]
  rfl

/-! ### Claim C8 -/

/-- C8: the `discount` entry of a returned record is present if and only if
both `mrp` and `sellingPrice` are present, and when present it equals
`round((mrp - sellingPrice) / mrp * 100)` with Python's half-to-even
rounding over the exact rational value. -/
theorem c8_discount (hashF : String → Int) (e : Elem) (q : String) (d : Dict)
    (h : extractProductInfo hashF e q = some d) :
    ((dget "discount" d).isSome = true ↔
      ((dget "mrp" d).isSome = true ∧ (dget "sellingPrice" d).isSome = true)) ∧
    (∀ mv sv : Int, dget "mrp" d = some (.int mv) → dget "sellingPrice" d = some (.int sv) →
      dget "discount" d =
        some (.int (pyRound (((mv : ℚ) - (sv : ℚ)) / (mv : ℚ) * 100)))) := by
  obtain ⟨d2, d3, d6, h1, h2, h3, hd, hg⟩ := (extract_some_iff hashF e q d).mp h
  have hdisc7 : dget "discount" (defaultsStep hashF q d6) = none := by
    rw [defaultsStep_dget_ne _ _ _ _ (by decide) (by decide) (by decide) (by decide) (by decide)
        (by decide) (by decide),
      ratingStep_ok_dget_ne _ _ _ _ (by decide) h3,
      linkStep_dget_ne _ _ _ (by decide) (by decide),
      imgStep_dget_ne _ _ _ (by decide),
      mrpStep_ok_dget_ne _ _ _ _ (by decide) h2,
      priceStep_ok_dget_ne _ _ _ _ (by decide) h1,
      titleStep_dget_ne e [] _ (by decide)]
    rfl
  have hmrp_pres : dget "mrp" d = dget "mrp" (defaultsStep hashF q d6) := by
    rw [hd, discountStep_dget_ne _ _ (by decide)]
  have hsp_pres : dget "sellingPrice" d = dget "sellingPrice" (defaultsStep hashF q d6) := by
    rw [hd, discountStep_dget_ne _ _ (by decide)]
  simp only [Bool.and_eq_true] at hg
  have hmrp_truthy : ∀ v : Int, dget "mrp" d = some (.int v) →
      truthy (dget "mrp" d) = true := by
    intro v hv
    have hlt := extract_mrp_val hashF e q d h v hv
    have h0 : (0 : Int) ≤ (sellingOf e).getD 0 := sellingOf_getD_nonneg e
    rw [hv]
    simp only [truthy, decide_eq_true_eq]
    omega
  by_cases hcond : (truthy (dget "mrp" (defaultsStep hashF q d6)) &&
      truthy (dget "sellingPrice" (defaultsStep hashF q d6))) = true
  · have hdval : d = dset "discount" (.int (pyRound
        (((intGetD (dget "mrp" (defaultsStep hashF q d6)) 0 : ℚ) -
          (intGetD (dget "sellingPrice" (defaultsStep hashF q d6)) 0 : ℚ)) /
          (intGetD (dget "mrp" (defaultsStep hashF q d6)) 0 : ℚ) * 100)))
        (defaultsStep hashF q d6) := by
      rw [hd]
      unfold discountStep
      rw [if_pos hcond]
    rw [Bool.and_eq_true] at hcond
    obtain ⟨hcm, hcs⟩ := hcond
    constructor
    · constructor
      · intro _
        constructor
        · rw [hmrp_pres]
          exact truthy_isSome _ hcm
        · exact truthy_isSome _ hg.2
      · intro _
        rw [hdval, dget_dset_self]
        rfl
    · intro mv sv hmv hsv
      have e1 : intGetD (dget "mrp" (defaultsStep hashF q d6)) 0 = mv := by
        rw [← hmrp_pres, hmv]
        rfl
      have e2 : intGetD (dget "sellingPrice" (defaultsStep hashF q d6)) 0 = sv := by
        rw [← hsp_pres, hsv]
        rfl
      rw [hdval, dget_dset_self, e1, e2]
  · have hdval : d = defaultsStep hashF q d6 := by
      rw [hd]
      unfold discountStep
      rw [if_neg hcond]
    constructor
    · constructor
      · intro hds
        rw [hdval, hdisc7] at hds
        simp at hds
      · rintro ⟨hms, hss⟩
        exfalso
        obtain ⟨v, hv⟩ := Option.isSome_iff_exists.mp hms
        have hm' := extract_final_mrp hashF e q d h
        rw [hv] at hm'
        cases hmo : mrpOf e ((sellingOf e).getD 0) with
        | none => rw [hmo] at hm'; exact Option.noConfusion hm'
        | some w =>
          rw [hmo] at hm'
          simp only [Option.map_some'] at hm'
          injection hm' with hvw
          have htm : truthy (dget "mrp" d) = true := hmrp_truthy w (by rw [hv, hvw])
          apply hcond
          rw [← hmrp_pres, ← hsp_pres]
          simp [htm, hg.2]
    · intro mv sv hmv hsv
      exfalso
      have htm := hmrp_truthy mv hmv
      apply hcond
      rw [← hmrp_pres, ← hsp_pres]
      simp [htm, hg.2]

/-- Witness for C8 at the container `eM` (mrp 150, selling price 100,
discount 33). -/
theorem c8_discount_witness :
    dget "discount" dM = some (.int 33) ∧ (dget "discount" dM).isSome = true := by
  have h := c8_discount hashF0 eM "q" dM rfl
  have hval := h.2 150 100 rfl rfl
  have hev : pyRound ((((150 : Int) : ℚ) - ((100 : Int) : ℚ)) / ((150 : Int) : ℚ) * 100) = 33 := by
    norm_num [pyRound]
  constructor
  · rw [hval, hev]
  · exact h.1.mpr ⟨rfl, rfl⟩

end Flipkart
